import Mathlib

/-!
Shallow embedding of the 2048 game engine in `src/modules/Game.class.js`.

The engine state (`this._state`, `this._score`, `this._status`, plus the
retained `initialState` snapshot and `startTilesAmount`) becomes a `Game`
structure.  JavaScript's in-place mutations become pure state transformers;
the ambient `Math.random()` calls are made explicit parameters (`r` for the
empty-cell index draw, `coin` for the 2-vs-4 draw where `coin = true` models
`Math.random() < 0.9`).  Grid cells are natural numbers (the sanitizer only
ever produces non-negative values); the untrusted constructor input is a grid
of integers.  JavaScript's 32-bit coercion in the `&` operator is modelled
explicitly with `% 2 ^ 32`.
-/

/-- `Game.STATUS` enum: Idle / Playing / Lost / Won. -/
inductive Status where
  | Idle
  | Playing
  | Lost
  | Won
deriving DecidableEq, Repr

/-- The game engine state: `_state`, `_score`, `_status`, the retained
`initialState` snapshot and `startTilesAmount`. -/
structure Game where
  state : List (List Nat)
  initialState : List (List Nat)
  score : Nat := 0
  status : Status := .Idle
  startTilesAmount : Nat := 2
deriving DecidableEq, Repr

/-- `Game.START_TILES_QUANTITY_DEFAULT = 2`. -/
def START_TILES_QUANTITY_DEFAULT : Nat := 2

/-- `Game.DEFAULT_BOARD`: a 4×4 grid of zeros (as untrusted constructor
input, hence integers). -/
def DEFAULT_BOARD : List (List Int) :=
  [[0, 0, 0, 0], [0, 0, 0, 0], [0, 0, 0, 0], [0, 0, 0, 0]]

/-- Reading `this._state[r][c]`; out-of-range reads default to `0`
(irrelevant on the square grids the engine maintains). -/
def cellAt (s : List (List Nat)) (r c : Nat) : Nat :=
  (s.getD r []).getD c 0

/-- Column `c` of the grid, top to bottom (reading `this._state[row][col]`
for `row = 0 .. size-1`). -/
def getColumn (s : List (List Nat)) (c : Nat) : List Nat :=
  s.map (fun row => row.getD c 0)

/-- The `transpose()` method.  The source swaps `_state[i][j]` with
`_state[j][i]` for all `i < j < size`, which on a square grid is exactly the
matrix transpose: row `c` of the result is column `c` of the input. -/
def transpose (s : List (List Nat)) : List (List Nat) :=
  (List.range s.length).map (fun c => getColumn s c)

/-- The `reverseGrid()` method: `this._state.reverse()`. -/
def reverseGrid (s : List (List Nat)) : List (List Nat) :=
  s.reverse

/-- `rotateClockwise()`: `transpose()` then reverse each row. -/
def rotateClockwise (s : List (List Nat)) : List (List Nat) :=
  (transpose s).map List.reverse

/-- `rotateCounterClockwise()`: reverse each row, then `transpose()`. -/
def rotateCounterClockwise (s : List (List Nat)) : List (List Nat) :=
  transpose (s.map List.reverse)

/-- The `while (i < numbers.length)` merge loop of `handleMove`: a single
left-to-right pass; two equal adjacent entries are replaced by the doubled
value (which is also the score gain) and the scan advances by two, otherwise
the entry is kept and the scan advances by one.  Returns the merged list and
the total score gained. -/
def mergeList : List Nat → List Nat × Nat
  | [] => ([], 0)
  | [x] => ([x], 0)
  | x :: y :: rest =>
    if x = y then
      let p := mergeList rest
      (x * 2 :: p.1, p.2 + x * 2)
    else
      let p := mergeList (y :: rest)
      (x :: p.1, p.2)

/-- One column of `handleMove`: collect the non-zero entries (in order),
run the single-pass merge, and pad with zeros to length `n`.  Returns the
written-back column and the score gained. -/
def mergeColumn (col : List Nat) (n : Nat) : List Nat × Nat :=
  let numbers := col.filter (fun v => v ≠ 0)
  let p := mergeList numbers
  (p.1 ++ List.replicate (n - p.1.length) 0, p.2)

/-- `handleMove()`: for each column of the grid, collect / merge / pad and
write the result back into that column, accumulating the score.  The source
does this in place column by column; since column `c` is read before it is
written and distinct columns do not interact, this equals the simultaneous
per-column update below. -/
def handleMove (g : Game) : Game :=
  let n := g.state.length
  let cols := transpose g.state
  { g with
    state := transpose (cols.map (fun col => (mergeColumn col n).1))
    score := g.score + (cols.map (fun col => (mergeColumn col n).2)).sum }

/-- `moveUp()`: just `handleMove()`. -/
def moveUp (g : Game) : Game := handleMove g

/-- `moveDown()`: `reverseGrid(); handleMove(); reverseGrid()`. -/
def moveDown (g : Game) : Game :=
  let g1 := handleMove { g with state := reverseGrid g.state }
  { g1 with state := reverseGrid g1.state }

/-- `moveLeft()`: `rotateClockwise(); handleMove(); rotateCounterClockwise()`. -/
def moveLeft (g : Game) : Game :=
  let g1 := handleMove { g with state := rotateClockwise g.state }
  { g1 with state := rotateCounterClockwise g1.state }

/-- `moveRight()`: `rotateCounterClockwise(); handleMove(); rotateClockwise()`. -/
def moveRight (g : Game) : Game :=
  let g1 := handleMove { g with state := rotateCounterClockwise g.state }
  { g1 with state := rotateClockwise g1.state }

/-- `getTwoOrFour()`: 2 when `Math.random() < 0.9` (modelled by the
explicit draw `coin = true`), otherwise 4. -/
def getTwoOrFour (coin : Bool) : Nat :=
  if coin then 2 else 4

/-- The empty-cell enumeration of `placeNewTile()`: all `(row, col)` with
`row, col < size` and `_state[row][col] === 0`, in row-major order. -/
def emptyCells (s : List (List Nat)) : List (Nat × Nat) :=
  ((List.range s.length).map (fun row =>
    (List.range s.length).filterMap (fun col =>
      if cellAt s row col = 0 then some (row, col) else none))).flatten

/-- Writing `this._state[row][col] = v`. -/
def setCell (s : List (List Nat)) (r c v : Nat) : List (List Nat) :=
  s.set r ((s.getD r []).set c v)

/-- `placeNewTile()`: if there is an empty cell, pick one at random
(`r % length` models `Math.floor(Math.random() * length)`, an arbitrary
in-range index) and set it to 2 or 4; otherwise do nothing. -/
def placeNewTile (r : Nat) (coin : Bool) (g : Game) : Game :=
  let empty := emptyCells g.state
  if empty.length > 0 then
    let cell := empty.getD (r % empty.length) (0, 0)
    { g with state := setCell g.state cell.1 cell.2 (getTwoOrFour coin) }
  else g

/-- `checkMovePossibility()`: scans all cells; a cell makes a move possible
when it is `0`, or its right neighbour (when it exists) equals it, or its
lower neighbour (when it exists) equals it. -/
def checkMovePossibility (s : List (List Nat)) : Bool :=
  (List.range s.length).any fun row =>
    (List.range s.length).any fun col =>
      cellAt s row col == 0
      || (decide (col < s.length - 1) && (cellAt s row (col + 1) == cellAt s row col))
      || (decide (row < s.length - 1) && (cellAt s (row + 1) col == cellAt s row col))

/-- `this._state.some((row) => row.includes(2048))`. -/
def has2048 (s : List (List Nat)) : Bool :=
  s.any (fun row => row.contains 2048)

/-- `updateGameStatus()`: if no move is possible, set status to `Lost` and
return; otherwise set status to `Won` when some cell holds 2048, else leave
the status alone. -/
def updateGameStatus (g : Game) : Game :=
  if checkMovePossibility g.state = false then
    { g with status := .Lost }
  else if has2048 g.state then
    { g with status := .Won }
  else g

/-- `start()`: set status to `Playing`, then call `placeNewTile()`
`startTilesAmount` times; `rand i` supplies the two random draws of the
`i`-th call. -/
def start (rand : Nat → Nat × Bool) (g : Game) : Game :=
  (List.range g.startTilesAmount).foldl
    (fun acc i => placeNewTile (rand i).1 (rand i).2 acc)
    { g with status := .Playing }

/-- `restart()`: status to `Idle`, state to a copy of the `initialState`
snapshot, score to 0, then `start()`. -/
def restart (rand : Nat → Nat × Bool) (g : Game) : Game :=
  start rand { g with status := .Idle, state := g.initialState, score := 0 }

/-- `move(key)`: the `switch` dispatch on the four arrow keys (anything
else leaves the grid alone), then unconditionally `placeNewTile()` and
`updateGameStatus()`. -/
def move (key : String) (r : Nat) (coin : Bool) (g : Game) : Game :=
  let moved :=
    if key = "ArrowUp" then moveUp g
    else if key = "ArrowRight" then moveRight g
    else if key = "ArrowDown" then moveDown g
    else if key = "ArrowLeft" then moveLeft g
    else g
  updateGameStatus (placeNewTile r coin moved)

/-- ECMAScript `ToUint32`: the operand bit pattern of the 32-bit `&`.
For the `=== 0` comparison only the common 32-bit pattern matters, so the
signed reinterpretation of `ToInt32` can be elided. -/
def toUint32 (n : Int) : Nat :=
  (n % 4294967296).toNat

/-- The `isPowerOfTwo` helper of `sanitizeState`:
`n > 0 && (n & (n - 1)) === 0`, with the JavaScript `&` truncating both
operands to 32 bits. -/
def isPowerOfTwoJS (n : Int) : Bool :=
  decide (0 < n) && (toUint32 n &&& toUint32 (n - 1) == 0)

/-- The `getNearestLowerPowerOfTwo` helper of `sanitizeState`:
`0` for `n <= 0`, otherwise `2 ^ floor(log2 n)` (the real-valued `Math.log2`
on a positive integer, floored, is the integer floor log base 2). -/
def getNearestLowerPowerOfTwo (n : Int) : Nat :=
  if n ≤ 0 then 0 else 2 ^ Nat.log2 n.toNat

/-- The `sanitizeValue` helper of `sanitizeState`. -/
def sanitizeValue (forcePowerOfTwo : Bool) (v : Int) : Nat :=
  if forcePowerOfTwo then getNearestLowerPowerOfTwo v
  else if isPowerOfTwoJS v then v.toNat else 0

/-- `Game.sanitizeState(state, forcePowerOfTwo)`. -/
def sanitizeState (state : List (List Int)) (forcePowerOfTwo : Bool) :
    List (List Nat) :=
  state.map (fun row => row.map (sanitizeValue forcePowerOfTwo))

/-- The constructor: sanitize the provided initial state (or the default
board), store it as the live grid and retain a snapshot of it. -/
def Game.new (initialState : Option (List (List Int)))
    (startTilesAmount : Nat := START_TILES_QUANTITY_DEFAULT)
    (forcePowerOfTwo : Bool := false) : Game :=
  let init := sanitizeState (initialState.getD DEFAULT_BOARD) forcePowerOfTwo
  { state := init, initialState := init, startTilesAmount := startTilesAmount }

/-- A public operation on a constructed engine, with its random draws. -/
inductive Op where
  | start (rand : Nat → Nat × Bool)
  | restart (rand : Nat → Nat × Bool)
  | move (key : String) (r : Nat) (coin : Bool)

/-- Whether an operation is the explicit `restart`. -/
def Op.isRestart : Op → Bool
  | .restart _ => true
  | _ => false

/-- Apply one operation. -/
def applyOp (g : Game) : Op → Game
  | .start rand => start rand g
  | .restart rand => restart rand g
  | .move key r coin => move key r coin g

/-- Apply a sequence of operations in order. -/
def applyOps (g : Game) (ops : List Op) : Game :=
  ops.foldl applyOp g

/-- A cell value is `0` or a strictly positive power of two. -/
def cellValid (v : Nat) : Prop :=
  v = 0 ∨ ∃ k : Nat, v = 2 ^ k

/-- The §3 grid invariant: an `n × n` grid of valid cells. -/
def gridValid (n : Nat) (s : List (List Nat)) : Prop :=
  s.length = n ∧ (∀ row ∈ s, row.length = n) ∧
    ∀ row ∈ s, ∀ v ∈ row, cellValid v

/-- Both the live grid and the retained snapshot satisfy the invariant. -/
def ValidGame (n : Nat) (g : Game) : Prop :=
  gridValid n g.state ∧ gridValid n g.initialState

/-- A square grid: every row as long as the list of rows. -/
def Square (s : List (List Nat)) : Prop :=
  ∀ row ∈ s, row.length = s.length

/-- Cellwise relation between a grid and the grid after some tile spawns:
every cell is unchanged, or was `0` and now holds 2 or 4. -/
def spawnRel (a b : List (List Nat)) : Prop :=
  ∀ r c, cellAt b r c = cellAt a r c ∨
    (cellAt a r c = 0 ∧ (cellAt b r c = 2 ∨ cellAt b r c = 4))

instance (s : List (List Nat)) : Decidable (Square s) :=
  inferInstanceAs (Decidable (∀ row ∈ s, row.length = s.length))

/-! ### List helper lemmas -/

lemma getD_of_lt {α : Type} (l : List α) {i : Nat} (h : i < l.length) (d : α) :
    l.getD i d = l[i] := by
  simp [List.getD_eq_getElem?_getD, List.getElem?_eq_getElem h]

lemma getD_mem {α : Type} (l : List α) {i : Nat} (h : i < l.length) (d : α) :
    l.getD i d ∈ l := by
  rw [getD_of_lt _ h]
  exact List.getElem_mem h

lemma getD_range_map {α : Type} (f : Nat → α) {n i : Nat} (h : i < n) (d : α) :
    ((List.range n).map f).getD i d = f i := by
  have h' : i < ((List.range n).map f).length := by simpa
  rw [getD_of_lt _ h']
  simp

lemma range_map_getD (L : List Nat) :
    (List.range L.length).map (fun j => L.getD j 0) = L := by
  apply List.ext_getElem
  · simp
  · intro i h1 h2
    simp only [List.getElem_map, List.getElem_range]
    exact getD_of_lt L h2 0

lemma getD_map_of_lt {α β : Type} (f : α → β) (l : List α) {i : Nat}
    (h : i < l.length) (d : β) (d' : α) :
    (l.map f).getD i d = f (l.getD i d') := by
  have h' : i < (l.map f).length := by simpa
  rw [getD_of_lt _ h', getD_of_lt _ h]
  simp

lemma map_range_reflect {α : Type} (f : Nat → α) (n : Nat) :
    (List.range n).map (fun c => f (n - 1 - c)) = ((List.range n).map f).reverse := by
  apply List.ext_getElem
  · simp
  · intro i h1 h2
    simp [List.getElem_reverse]

lemma sum_map_range_reflect (f : Nat → Nat) (n : Nat) :
    ((List.range n).map (fun c => f (n - 1 - c))).sum = ((List.range n).map f).sum := by
  rw [map_range_reflect, List.sum_reverse]

/-! ### Grid helper lemmas -/

lemma length_getColumn (s : List (List Nat)) (c : Nat) :
    (getColumn s c).length = s.length := by
  simp [getColumn]

lemma getColumn_getD {s : List (List Nat)} {c : Nat} (hc : c < s.length) (j : Nat) :
    (getColumn s j).getD c 0 = (s.getD c []).getD j 0 := by
  show (s.map fun row => row.getD j 0).getD c 0 = _
  rw [getD_map_of_lt (fun row => row.getD j 0) s hc 0 ([] : List Nat)]

lemma length_transpose (s : List (List Nat)) : (transpose s).length = s.length := by
  simp [transpose]

lemma transpose_getD {s : List (List Nat)} {c : Nat} (hc : c < s.length) :
    (transpose s).getD c [] = getColumn s c := by
  rw [transpose]
  exact getD_range_map _ hc _

lemma mem_transpose_length {s : List (List Nat)} {row : List Nat}
    (h : row ∈ transpose s) : row.length = s.length := by
  simp only [transpose, List.mem_map, List.mem_range] at h
  obtain ⟨c, _, rfl⟩ := h
  exact length_getColumn s c

lemma getColumn_transpose {M : List (List Nat)} {c : Nat} (hc : c < M.length)
    (hrow : (M.getD c []).length = M.length) :
    getColumn (transpose M) c = M.getD c [] := by
  show (transpose M).map (fun row => row.getD c 0) = M.getD c []
  rw [transpose, List.map_map]
  have hcongr : ∀ j ∈ List.range M.length,
      ((fun row => row.getD c 0) ∘ fun c => getColumn M c) j =
        (fun j => (M.getD c []).getD j 0) j := by
    intro j hj
    simp only [Function.comp]
    exact getColumn_getD hc j
  rw [List.map_congr_left hcongr]
  calc (List.range M.length).map (fun j => (M.getD c []).getD j 0)
      = (List.range (M.getD c []).length).map (fun j => (M.getD c []).getD j 0) := by
        rw [hrow]
    _ = M.getD c [] := range_map_getD _

lemma getColumn_reverseGrid (A : List (List Nat)) (c : Nat) :
    getColumn (reverseGrid A) c = (getColumn A c).reverse := by
  simp [getColumn, reverseGrid, List.map_reverse]

lemma square_row_length {s : List (List Nat)} (hsq : Square s) {i : Nat}
    (hi : i < s.length) : (s.getD i []).length = s.length :=
  hsq _ (getD_mem _ hi _)

lemma getColumn_map_reverse {A : List (List Nat)} {n c : Nat}
    (hA : ∀ row ∈ A, row.length = n) (hc : c < n) :
    getColumn (A.map List.reverse) c = getColumn A (n - 1 - c) := by
  show (A.map List.reverse).map (fun row => row.getD c 0) = _
  rw [List.map_map]
  apply List.map_congr_left
  intro row hrow
  have hl : row.length = n := hA row hrow
  have hcl : c < row.reverse.length := by simp [hl, hc]
  have hcl2 : n - 1 - c < row.length := by omega
  simp only [Function.comp]
  rw [getD_of_lt _ hcl, List.getElem_reverse, getD_of_lt _ hcl2]
  congr 1
  simp [hl]

/-! ### Merge lemmas -/

lemma mergeList_length_le : ∀ l : List Nat, (mergeList l).1.length ≤ l.length
  | [] => by simp [mergeList]
  | [x] => by simp [mergeList]
  | x :: y :: rest => by
    by_cases h : x = y
    · have ih := mergeList_length_le rest
      simp only [mergeList, if_pos h]
      simp only [List.length_cons]
      omega
    · have ih := mergeList_length_le (y :: rest)
      simp only [mergeList, if_neg h]
      simp only [List.length_cons] at ih ⊢
      omega

lemma mergeColumn_length {col : List Nat} {n : Nat} (h : col.length ≤ n) :
    (mergeColumn col n).1.length = n := by
  have h1 : (mergeList (col.filter (fun v => v ≠ 0))).1.length ≤ col.length :=
    le_trans (mergeList_length_le _) (List.length_filter_le _ _)
  simp only [mergeColumn, List.length_append, List.length_replicate]
  omega

/-! ### `handleMove` characterization -/

lemma handleMove_state_length (g : Game) :
    (handleMove g).state.length = g.state.length := by
  simp [handleMove, length_transpose]

lemma handleMove_row_length (g : Game) :
    ∀ row ∈ (handleMove g).state, row.length = g.state.length := by
  intro row hrow
  have h := mem_transpose_length (s := (transpose g.state).map
    (fun col => (mergeColumn col g.state.length).1)) hrow
  simpa [length_transpose] using h

lemma handleMove_frame (g : Game) :
    (handleMove g).status = g.status ∧
      (handleMove g).initialState = g.initialState ∧
      (handleMove g).startTilesAmount = g.startTilesAmount := by
  simp [handleMove]

lemma handleMove_col {g : Game} {c : Nat} (hc : c < g.state.length) :
    getColumn (handleMove g).state c =
      (mergeColumn (getColumn g.state c) g.state.length).1 := by
  have hlen : ((transpose g.state).map
      (fun col => (mergeColumn col g.state.length).1)).length = g.state.length := by
    simp [length_transpose]
  have hc' : c < ((transpose g.state).map
      (fun col => (mergeColumn col g.state.length).1)).length := by
    rw [hlen]; exact hc
  have hct : c < (transpose g.state).length := by rw [length_transpose]; exact hc
  have hgetD : ((transpose g.state).map
        (fun col => (mergeColumn col g.state.length).1)).getD c [] =
      (mergeColumn (getColumn g.state c) g.state.length).1 := by
    rw [getD_map_of_lt _ _ hct ([] : List Nat) ([] : List Nat), transpose_getD hc]
  have hrow : (((transpose g.state).map
        (fun col => (mergeColumn col g.state.length).1)).getD c []).length =
      ((transpose g.state).map
        (fun col => (mergeColumn col g.state.length).1)).length := by
    rw [hgetD, hlen]
    exact mergeColumn_length (by rw [length_getColumn])
  show getColumn (transpose ((transpose g.state).map
    (fun col => (mergeColumn col g.state.length).1))) c = _
  rw [getColumn_transpose hc' hrow, hgetD]

lemma handleMove_score (g : Game) :
    (handleMove g).score = g.score +
      ((List.range g.state.length).map
        (fun c => (mergeColumn (getColumn g.state c) g.state.length).2)).sum := by
  simp [handleMove, transpose, List.map_map]
  rfl

/-! ### Orientation lemmas for the four directions -/

lemma getColumn_rotateClockwise {s : List (List Nat)} (hsq : Square s) {c : Nat}
    (hc : c < s.length) :
    getColumn (rotateClockwise s) c = s.getD (s.length - 1 - c) [] := by
  rw [rotateClockwise,
    getColumn_map_reverse (n := s.length) (fun row hrow => mem_transpose_length hrow) hc]
  exact getColumn_transpose (by omega) (square_row_length hsq (by omega))

lemma getColumn_rotateCounterClockwise {s : List (List Nat)} (hsq : Square s) {c : Nat}
    (hc : c < s.length) :
    getColumn (rotateCounterClockwise s) c = (s.getD c []).reverse := by
  have hc' : c < (s.map List.reverse).length := by simpa
  have hgd : (s.map List.reverse).getD c [] = (s.getD c []).reverse := by
    rw [getD_map_of_lt List.reverse s hc ([] : List Nat) ([] : List Nat)]
  have h2 : ((s.map List.reverse).getD c []).length = (s.map List.reverse).length := by
    rw [hgd, List.length_reverse, List.length_map]
    exact square_row_length hsq hc
  rw [rotateCounterClockwise, getColumn_transpose hc' h2, hgd]

lemma moveDown_col {g : Game} {c : Nat} (hc : c < g.state.length) :
    getColumn (moveDown g).state c =
      ((mergeColumn (getColumn g.state c).reverse g.state.length).1).reverse := by
  show getColumn (reverseGrid (handleMove { g with state := reverseGrid g.state }).state) c = _
  rw [getColumn_reverseGrid]
  have hc' : c < ({ g with state := reverseGrid g.state } : Game).state.length := by
    simp [reverseGrid]
    exact hc
  rw [handleMove_col hc']
  simp only [reverseGrid, List.length_reverse]
  rw [show getColumn g.state.reverse c = (getColumn g.state c).reverse from
    getColumn_reverseGrid g.state c]

lemma moveLeft_row {g : Game} (hsq : Square g.state) {i : Nat}
    (hi : i < g.state.length) :
    (moveLeft g).state.getD i [] =
      (mergeColumn (g.state.getD i []) g.state.length).1 := by
  have hn : ({ g with state := rotateClockwise g.state } : Game).state.length
      = g.state.length := by
    simp [rotateClockwise, length_transpose]
  have hT : (handleMove { g with state := rotateClockwise g.state }).state.length
      = g.state.length := by
    rw [handleMove_state_length, hn]
  have hTrows : ∀ row ∈ (handleMove { g with state := rotateClockwise g.state }).state,
      row.length = g.state.length := by
    intro row hrow
    rw [handleMove_row_length _ row hrow, hn]
  show (rotateCounterClockwise
    (handleMove { g with state := rotateClockwise g.state }).state).getD i [] = _
  rw [rotateCounterClockwise, transpose_getD (by simpa [hT] using hi),
    getColumn_map_reverse hTrows hi,
    handleMove_col (by rw [hn]; omega)]
  rw [hn]
  have hcol : getColumn ({ g with state := rotateClockwise g.state } : Game).state
      (g.state.length - 1 - i) = g.state.getD i [] := by
    show getColumn (rotateClockwise g.state) _ = _
    rw [getColumn_rotateClockwise hsq (by omega)]
    congr 1
    omega
  rw [hcol]

lemma moveRight_row {g : Game} (hsq : Square g.state) {i : Nat}
    (hi : i < g.state.length) :
    (moveRight g).state.getD i [] =
      ((mergeColumn (g.state.getD i []).reverse g.state.length).1).reverse := by
  have hn : ({ g with state := rotateCounterClockwise g.state } : Game).state.length
      = g.state.length := by
    simp [rotateCounterClockwise, length_transpose]
  have hT : (handleMove { g with state := rotateCounterClockwise g.state }).state.length
      = g.state.length := by
    rw [handleMove_state_length, hn]
  show (rotateClockwise
    (handleMove { g with state := rotateCounterClockwise g.state }).state).getD i [] = _
  rw [rotateClockwise,
    getD_map_of_lt List.reverse _ (by simp [length_transpose, hT]; exact hi)
      ([] : List Nat) ([] : List Nat),
    transpose_getD (by rw [hT]; exact hi),
    handleMove_col (by rw [hn]; exact hi)]
  rw [hn]
  have hcol : getColumn ({ g with state := rotateCounterClockwise g.state } : Game).state i
      = (g.state.getD i []).reverse := by
    show getColumn (rotateCounterClockwise g.state) i = _
    exact getColumn_rotateCounterClockwise hsq hi
  rw [hcol]

lemma moveDown_score (g : Game) :
    (moveDown g).score = g.score +
      ((List.range g.state.length).map
        (fun c => (mergeColumn (getColumn g.state c).reverse g.state.length).2)).sum := by
  show (handleMove { g with state := reverseGrid g.state }).score = _
  rw [handleMove_score]
  simp only [reverseGrid, List.length_reverse]
  congr 2
  apply List.map_congr_left
  intro c _
  rw [show getColumn g.state.reverse c = (getColumn g.state c).reverse from
    getColumn_reverseGrid g.state c]

lemma moveLeft_score {g : Game} (hsq : Square g.state) :
    (moveLeft g).score = g.score +
      ((List.range g.state.length).map
        (fun i => (mergeColumn (g.state.getD i []) g.state.length).2)).sum := by
  show (handleMove { g with state := rotateClockwise g.state }).score = _
  rw [handleMove_score]
  have hn : ({ g with state := rotateClockwise g.state } : Game).state.length
      = g.state.length := by
    simp [rotateClockwise, length_transpose]
  simp only [hn]
  have hmap : (List.range g.state.length).map
      (fun c => (mergeColumn
        (getColumn ({ g with state := rotateClockwise g.state } : Game).state c)
        g.state.length).2) =
      (List.range g.state.length).map
        (fun c => (mergeColumn (g.state.getD (g.state.length - 1 - c) [])
          g.state.length).2) := by
    apply List.map_congr_left
    intro c hcm
    rw [List.mem_range] at hcm
    congr 2
    exact getColumn_rotateClockwise hsq hcm
  rw [hmap,
    sum_map_range_reflect (fun i => (mergeColumn (g.state.getD i []) g.state.length).2)]

lemma moveRight_score {g : Game} (hsq : Square g.state) :
    (moveRight g).score = g.score +
      ((List.range g.state.length).map
        (fun i => (mergeColumn (g.state.getD i []).reverse g.state.length).2)).sum := by
  show (handleMove { g with state := rotateCounterClockwise g.state }).score = _
  rw [handleMove_score]
  have hn : ({ g with state := rotateCounterClockwise g.state } : Game).state.length
      = g.state.length := by
    simp [rotateCounterClockwise, length_transpose]
  simp only [hn]
  congr 2
  apply List.map_congr_left
  intro c hcm
  rw [List.mem_range] at hcm
  congr 2
  exact getColumn_rotateCounterClockwise hsq hcm

/-! ### Shape and frame lemmas for the moves -/

lemma length_rotateClockwise (s : List (List Nat)) :
    (rotateClockwise s).length = s.length := by
  simp [rotateClockwise, length_transpose]

lemma length_rotateCounterClockwise (s : List (List Nat)) :
    (rotateCounterClockwise s).length = s.length := by
  simp [rotateCounterClockwise, length_transpose]

lemma moveUp_state_length (g : Game) : (moveUp g).state.length = g.state.length :=
  handleMove_state_length g

lemma moveUp_row_length (g : Game) :
    ∀ row ∈ (moveUp g).state, row.length = g.state.length :=
  handleMove_row_length g

lemma moveDown_state_length (g : Game) : (moveDown g).state.length = g.state.length := by
  show (reverseGrid (handleMove { g with state := reverseGrid g.state }).state).length = _
  rw [reverseGrid, List.length_reverse, handleMove_state_length]
  simp [reverseGrid]

lemma moveDown_row_length (g : Game) :
    ∀ row ∈ (moveDown g).state, row.length = g.state.length := by
  intro row hrow
  rw [show (moveDown g).state
      = reverseGrid (handleMove { g with state := reverseGrid g.state }).state from rfl,
    reverseGrid, List.mem_reverse] at hrow
  rw [handleMove_row_length _ row hrow]
  simp [reverseGrid]

lemma moveLeft_state_length (g : Game) : (moveLeft g).state.length = g.state.length := by
  show (rotateCounterClockwise (handleMove { g with state := rotateClockwise g.state }).state).length = _
  rw [length_rotateCounterClockwise, handleMove_state_length]
  exact length_rotateClockwise g.state

lemma moveLeft_row_length (g : Game) :
    ∀ row ∈ (moveLeft g).state, row.length = g.state.length := by
  intro row hrow
  have h := mem_transpose_length hrow
  rw [List.length_map, handleMove_state_length] at h
  rw [h]
  exact length_rotateClockwise g.state

lemma moveRight_state_length (g : Game) : (moveRight g).state.length = g.state.length := by
  show ((transpose (handleMove { g with state := rotateCounterClockwise g.state }).state).map
    List.reverse).length = _
  rw [List.length_map, length_transpose, handleMove_state_length]
  exact length_rotateCounterClockwise g.state

lemma moveRight_row_length (g : Game) :
    ∀ row ∈ (moveRight g).state, row.length = g.state.length := by
  intro row hrow
  have hrow' : row ∈ (transpose
      (handleMove { g with state := rotateCounterClockwise g.state }).state).map
      List.reverse := hrow
  rw [List.mem_map] at hrow'
  obtain ⟨r0, hr0, rfl⟩ := hrow'
  rw [List.length_reverse, mem_transpose_length hr0, handleMove_state_length]
  exact length_rotateCounterClockwise g.state

lemma moveUp_frame (g : Game) :
    (moveUp g).status = g.status ∧ (moveUp g).initialState = g.initialState ∧
      (moveUp g).startTilesAmount = g.startTilesAmount := by
  simp [moveUp, handleMove]

lemma moveDown_frame (g : Game) :
    (moveDown g).status = g.status ∧ (moveDown g).initialState = g.initialState ∧
      (moveDown g).startTilesAmount = g.startTilesAmount := by
  simp [moveDown, handleMove]

lemma moveLeft_frame (g : Game) :
    (moveLeft g).status = g.status ∧ (moveLeft g).initialState = g.initialState ∧
      (moveLeft g).startTilesAmount = g.startTilesAmount := by
  simp [moveLeft, handleMove]

lemma moveRight_frame (g : Game) :
    (moveRight g).status = g.status ∧ (moveRight g).initialState = g.initialState ∧
      (moveRight g).startTilesAmount = g.startTilesAmount := by
  simp [moveRight, handleMove]

/-! ### Spawn lemmas -/

lemma mem_emptyCells {s : List (List Nat)} {p : Nat × Nat} :
    p ∈ emptyCells s ↔
      p.1 < s.length ∧ p.2 < s.length ∧ cellAt s p.1 p.2 = 0 := by
  constructor
  · intro h
    rw [emptyCells, List.mem_flatten] at h
    obtain ⟨l, hl, hmem⟩ := h
    rw [List.mem_map] at hl
    obtain ⟨row, hrow, rfl⟩ := hl
    rw [List.mem_range] at hrow
    rw [List.mem_filterMap] at hmem
    obtain ⟨col, hcol, hsome⟩ := hmem
    rw [List.mem_range] at hcol
    by_cases h0 : cellAt s row col = 0
    · rw [if_pos h0] at hsome
      obtain rfl : (row, col) = p := Option.some.inj hsome
      exact ⟨hrow, hcol, h0⟩
    · rw [if_neg h0] at hsome
      exact absurd hsome (Option.noConfusion)
  · intro ⟨h1, h2, h3⟩
    rw [emptyCells, List.mem_flatten]
    refine ⟨_, List.mem_map_of_mem _ (List.mem_range.mpr h1), ?_⟩
    rw [List.mem_filterMap]
    exact ⟨p.2, List.mem_range.mpr h2, by rw [if_pos h3]⟩

lemma length_setCell (s : List (List Nat)) (r c v : Nat) :
    (setCell s r c v).length = s.length := by
  simp [setCell]

lemma setCell_row_length {s : List (List Nat)} {n : Nat}
    (hA : ∀ row ∈ s, row.length = n) (r c v : Nat) :
    ∀ row ∈ setCell s r c v, row.length = n := by
  intro row hrow
  rcases Nat.lt_or_ge r s.length with hr | hr
  · rcases List.mem_or_eq_of_mem_set hrow with h | rfl
    · exact hA row h
    · rw [List.length_set]
      exact hA _ (getD_mem _ hr _)
  · rw [setCell, List.set_eq_of_length_le hr] at hrow
    exact hA row hrow

lemma setCell_getD_self {s : List (List Nat)} {r : Nat} (c v : Nat)
    (hr : r < s.length) :
    (setCell s r c v).getD r [] = (s.getD r []).set c v := by
  rw [setCell, getD_of_lt _ (by simpa using hr), List.getElem_set_self]

lemma cellAt_setCell_self {s : List (List Nat)} {r c : Nat} (v : Nat)
    (hr : r < s.length) (hc : c < (s.getD r []).length) :
    cellAt (setCell s r c v) r c = v := by
  rw [cellAt, setCell_getD_self c v hr, getD_of_lt _ (by simpa using hc),
    List.getElem_set_self]

lemma cellAt_setCell_other {s : List (List Nat)} {r c v r' c' : Nat}
    (h : ¬(r' = r ∧ c' = c)) :
    cellAt (setCell s r c v) r' c' = cellAt s r' c' := by
  by_cases hr : r' = r
  · subst hr
    have hcne : c ≠ c' := fun hc => h ⟨rfl, hc.symm⟩
    by_cases hrl : r' < s.length
    · rw [cellAt, setCell_getD_self c v hrl, cellAt]
      simp only [List.getD_eq_getElem?_getD]
      rw [List.getElem?_set_ne hcne]
    · rw [cellAt, setCell, List.set_eq_of_length_le (Nat.le_of_not_lt hrl)]
      rfl
  · have hrne : r ≠ r' := fun he => hr he.symm
    rw [cellAt, setCell, cellAt]
    simp only [List.getD_eq_getElem?_getD]
    rw [List.getElem?_set_ne hrne]

lemma cellAt_setCell_cases (s : List (List Nat)) (r c v r' c' : Nat) :
    cellAt (setCell s r c v) r' c' = cellAt s r' c' ∨
      (r' = r ∧ c' = c ∧ cellAt (setCell s r c v) r' c' = v) := by
  by_cases h : r' = r ∧ c' = c
  · obtain ⟨rfl, rfl⟩ := h
    by_cases hr : r' < s.length
    · by_cases hc : c' < (s.getD r' []).length
      · exact Or.inr ⟨rfl, rfl, cellAt_setCell_self v hr hc⟩
      · left
        rw [cellAt, setCell_getD_self c' v hr,
          List.set_eq_of_length_le (Nat.le_of_not_lt hc)]
        rfl
    · left
      rw [cellAt, setCell, List.set_eq_of_length_le (Nat.le_of_not_lt hr)]
      rfl
  · exact Or.inl (cellAt_setCell_other h)

lemma spawnRel_refl (a : List (List Nat)) : spawnRel a a :=
  fun _ _ => Or.inl rfl

lemma spawnRel_trans {a b c : List (List Nat)}
    (h1 : spawnRel a b) (h2 : spawnRel b c) : spawnRel a c := by
  intro r c'
  rcases h2 r c' with h | ⟨hb0, hv⟩
  · rw [h]
    exact h1 r c'
  · rcases h1 r c' with h' | ⟨ha0, hv'⟩
    · exact Or.inr ⟨h' ▸ hb0, hv⟩
    · exfalso
      rcases hv' with h' | h' <;> rw [h'] at hb0 <;> omega

lemma placeNewTile_frame (r : Nat) (coin : Bool) (g : Game) :
    (placeNewTile r coin g).score = g.score ∧
      (placeNewTile r coin g).status = g.status ∧
      (placeNewTile r coin g).initialState = g.initialState ∧
      (placeNewTile r coin g).startTilesAmount = g.startTilesAmount := by
  rw [placeNewTile]
  split <;> simp

lemma placeNewTile_state_length (r : Nat) (coin : Bool) (g : Game) :
    (placeNewTile r coin g).state.length = g.state.length := by
  rw [placeNewTile]
  split
  · exact length_setCell _ _ _ _
  · rfl

lemma placeNewTile_row_length {g : Game} {n : Nat}
    (hA : ∀ row ∈ g.state, row.length = n) (r : Nat) (coin : Bool) :
    ∀ row ∈ (placeNewTile r coin g).state, row.length = n := by
  rw [placeNewTile]
  split
  · exact setCell_row_length hA _ _ _
  · exact hA

lemma getTwoOrFour_cases (coin : Bool) :
    getTwoOrFour coin = 2 ∨ getTwoOrFour coin = 4 := by
  cases coin
  · exact Or.inr rfl
  · exact Or.inl rfl

lemma placeNewTile_spawnRel (r : Nat) (coin : Bool) (g : Game) :
    spawnRel g.state (placeNewTile r coin g).state := by
  rw [placeNewTile]
  split
  · rename_i hlen
    intro r' c'
    have hp : (emptyCells g.state).getD (r % (emptyCells g.state).length) (0, 0)
        ∈ emptyCells g.state := getD_mem _ (Nat.mod_lt _ hlen) _
    have hp0 := (mem_emptyCells.mp hp).2.2
    rcases cellAt_setCell_cases g.state _ _ (getTwoOrFour coin) r' c' with h | ⟨he1, he2, hv⟩
    · exact Or.inl h
    · subst he1
      subst he2
      rcases getTwoOrFour_cases coin with h2 | h2
      · exact Or.inr ⟨hp0, Or.inl (hv.trans h2)⟩
      · exact Or.inr ⟨hp0, Or.inr (hv.trans h2)⟩
  · exact spawnRel_refl _

lemma foldl_placeNewTile_spawnRel (l : List Nat) (rand : Nat → Nat × Bool) :
    ∀ g : Game, spawnRel g.state
      ((l.foldl (fun acc i => placeNewTile (rand i).1 (rand i).2 acc) g).state) := by
  induction l with
  | nil => exact fun g => spawnRel_refl _
  | cons x xs ih =>
    intro g
    exact spawnRel_trans (placeNewTile_spawnRel (rand x).1 (rand x).2 g) (ih _)

lemma foldl_placeNewTile_frame (l : List Nat) (rand : Nat → Nat × Bool) :
    ∀ g : Game,
      (l.foldl (fun acc i => placeNewTile (rand i).1 (rand i).2 acc) g).score = g.score ∧
      (l.foldl (fun acc i => placeNewTile (rand i).1 (rand i).2 acc) g).status = g.status ∧
      (l.foldl (fun acc i => placeNewTile (rand i).1 (rand i).2 acc) g).initialState
        = g.initialState ∧
      (l.foldl (fun acc i => placeNewTile (rand i).1 (rand i).2 acc) g).startTilesAmount
        = g.startTilesAmount := by
  induction l with
  | nil => exact fun g => ⟨rfl, rfl, rfl, rfl⟩
  | cons x xs ih =>
    intro g
    obtain ⟨h1, h2, h3, h4⟩ := ih (placeNewTile (rand x).1 (rand x).2 g)
    obtain ⟨p1, p2, p3, p4⟩ := placeNewTile_frame (rand x).1 (rand x).2 g
    exact ⟨h1.trans p1, h2.trans p2, h3.trans p3, h4.trans p4⟩

lemma start_score (rand : Nat → Nat × Bool) (g : Game) :
    (start rand g).score = g.score :=
  (foldl_placeNewTile_frame _ rand _).1

lemma start_status (rand : Nat → Nat × Bool) (g : Game) :
    (start rand g).status = .Playing :=
  (foldl_placeNewTile_frame _ rand _).2.1

lemma start_initialState (rand : Nat → Nat × Bool) (g : Game) :
    (start rand g).initialState = g.initialState :=
  (foldl_placeNewTile_frame _ rand _).2.2.1

lemma start_spawnRel (rand : Nat → Nat × Bool) (g : Game) :
    spawnRel g.state (start rand g).state :=
  foldl_placeNewTile_spawnRel _ rand _

/-! ### `updateGameStatus` lemmas -/

lemma updateGameStatus_state (g : Game) : (updateGameStatus g).state = g.state := by
  rw [updateGameStatus]
  split
  · rfl
  · split <;> rfl

lemma updateGameStatus_score (g : Game) : (updateGameStatus g).score = g.score := by
  rw [updateGameStatus]
  split
  · rfl
  · split <;> rfl

lemma updateGameStatus_initialState (g : Game) :
    (updateGameStatus g).initialState = g.initialState := by
  rw [updateGameStatus]
  split
  · rfl
  · split <;> rfl

lemma updateGameStatus_startTilesAmount (g : Game) :
    (updateGameStatus g).startTilesAmount = g.startTilesAmount := by
  rw [updateGameStatus]
  split
  · rfl
  · split <;> rfl

lemma updateGameStatus_status (g : Game) :
    (updateGameStatus g).status =
      if checkMovePossibility g.state = false then Status.Lost
      else if has2048 g.state = true then Status.Won
      else g.status := by
  by_cases h1 : checkMovePossibility g.state = false
  · simp [updateGameStatus, h1]
  · by_cases h2 : has2048 g.state = true <;> simp [updateGameStatus, h1, h2]

/-! ### Cell-invariant preservation -/

lemma cellValid_zero : cellValid 0 := Or.inl rfl

lemma cellValid_two : cellValid 2 := Or.inr ⟨1, rfl⟩

lemma cellValid_four : cellValid 4 := Or.inr ⟨2, rfl⟩

lemma cellValid_double {v : Nat} (h : cellValid v) : cellValid (v * 2) := by
  rcases h with rfl | ⟨k, rfl⟩
  · exact Or.inl rfl
  · exact Or.inr ⟨k + 1, by ring⟩

lemma mergeList_valid : ∀ {l : List Nat}, (∀ v ∈ l, cellValid v) →
    ∀ v ∈ (mergeList l).1, cellValid v
  | [], _ => by simp [mergeList]
  | [x], h => by
    intro v hv
    rw [mergeList] at hv
    rw [List.mem_singleton] at hv
    exact hv ▸ h x (List.mem_singleton_self x)
  | x :: y :: rest, h => by
    intro v hv
    by_cases hxy : x = y
    · rw [mergeList, if_pos hxy] at hv
      rcases List.mem_cons.mp hv with rfl | hv'
      · exact cellValid_double (h x (by simp))
      · exact mergeList_valid (fun w hw => h w (by simp [hw])) v hv'
    · rw [mergeList, if_neg hxy] at hv
      rcases List.mem_cons.mp hv with rfl | hv'
      · exact h v (by simp)
      · exact mergeList_valid (fun w hw => h w (by
          rcases List.mem_cons.mp hw with rfl | hw'
          · simp
          · simp [hw'])) v hv'

lemma mergeColumn_valid {col : List Nat} {n : Nat}
    (h : ∀ v ∈ col, cellValid v) : ∀ v ∈ (mergeColumn col n).1, cellValid v := by
  intro v hv
  simp only [mergeColumn] at hv
  rcases List.mem_append.mp hv with h1 | h1
  · exact mergeList_valid (fun w hw => h w (List.mem_of_mem_filter hw)) v h1
  · rw [List.eq_of_mem_replicate h1]
    exact cellValid_zero

lemma gridValid_getColumn {n : Nat} {s : List (List Nat)} (h : gridValid n s)
    (c : Nat) : ∀ v ∈ getColumn s c, cellValid v := by
  intro v hv
  rw [getColumn, List.mem_map] at hv
  obtain ⟨row, hrow, rfl⟩ := hv
  by_cases hc : c < row.length
  · exact h.2.2 row hrow _ (getD_mem _ hc _)
  · rw [List.getD_eq_getElem?_getD, List.getElem?_eq_none (Nat.le_of_not_lt hc)]
    exact cellValid_zero

lemma gridValid_transpose {n : Nat} {s : List (List Nat)} (h : gridValid n s) :
    gridValid n (transpose s) := by
  refine ⟨by rw [length_transpose, h.1], fun row hrow => by
    rw [mem_transpose_length hrow, h.1], fun row hrow v hv => ?_⟩
  rw [transpose, List.mem_map] at hrow
  obtain ⟨c, _, rfl⟩ := hrow
  exact gridValid_getColumn h c v hv

lemma gridValid_handleMove {n : Nat} {g : Game} (h : gridValid n g.state) :
    gridValid n (handleMove g).state := by
  have hn : g.state.length = n := h.1
  have hts := gridValid_transpose h
  have hM : gridValid n ((transpose g.state).map
      (fun col => (mergeColumn col g.state.length).1)) := by
    refine ⟨by rw [List.length_map, length_transpose, hn], ?_, ?_⟩
    · intro row hrow
      rw [List.mem_map] at hrow
      obtain ⟨col, hcol, rfl⟩ := hrow
      rw [mergeColumn_length (by rw [mem_transpose_length hcol])]
      exact hn
    · intro row hrow v hv
      rw [List.mem_map] at hrow
      obtain ⟨col, hcol, rfl⟩ := hrow
      exact mergeColumn_valid (fun w hw => hts.2.2 col hcol w hw) v hv
  exact gridValid_transpose hM

lemma gridValid_reverseGrid {n : Nat} {s : List (List Nat)} (h : gridValid n s) :
    gridValid n (reverseGrid s) := by
  refine ⟨by rw [reverseGrid, List.length_reverse, h.1], ?_, ?_⟩
  · intro row hrow
    rw [reverseGrid, List.mem_reverse] at hrow
    exact h.2.1 row hrow
  · intro row hrow
    rw [reverseGrid, List.mem_reverse] at hrow
    exact h.2.2 row hrow

lemma gridValid_mapReverse {n : Nat} {s : List (List Nat)} (h : gridValid n s) :
    gridValid n (s.map List.reverse) := by
  refine ⟨by rw [List.length_map, h.1], ?_, ?_⟩
  · intro row hrow
    rw [List.mem_map] at hrow
    obtain ⟨r0, hr0, rfl⟩ := hrow
    rw [List.length_reverse]
    exact h.2.1 r0 hr0
  · intro row hrow v hv
    rw [List.mem_map] at hrow
    obtain ⟨r0, hr0, rfl⟩ := hrow
    rw [List.mem_reverse] at hv
    exact h.2.2 r0 hr0 v hv

lemma gridValid_rotateClockwise {n : Nat} {s : List (List Nat)} (h : gridValid n s) :
    gridValid n (rotateClockwise s) :=
  gridValid_mapReverse (gridValid_transpose h)

lemma gridValid_rotateCounterClockwise {n : Nat} {s : List (List Nat)}
    (h : gridValid n s) : gridValid n (rotateCounterClockwise s) :=
  gridValid_transpose (gridValid_mapReverse h)

lemma gridValid_setCell {n : Nat} {s : List (List Nat)} (h : gridValid n s)
    {r c v : Nat} (hv : cellValid v) : gridValid n (setCell s r c v) := by
  refine ⟨by rw [length_setCell, h.1], setCell_row_length h.2.1 r c v, ?_⟩
  intro row hrow w hw
  rcases List.mem_or_eq_of_mem_set hrow with h1 | rfl
  · exact h.2.2 row h1 w hw
  · rcases List.mem_or_eq_of_mem_set hw with h2 | rfl
    · by_cases hrl : r < s.length
      · exact h.2.2 _ (getD_mem _ hrl _) w h2
      · rw [List.getD_eq_getElem?_getD, List.getElem?_eq_none (Nat.le_of_not_lt hrl)] at h2
        exact absurd h2 (List.not_mem_nil w)
    · exact hv

lemma gridValid_placeNewTile {n : Nat} {g : Game} (h : gridValid n g.state)
    (r : Nat) (coin : Bool) : gridValid n (placeNewTile r coin g).state := by
  rw [placeNewTile]
  split
  · apply gridValid_setCell h
    rcases getTwoOrFour_cases coin with h2 | h2 <;> rw [h2]
    · exact cellValid_two
    · exact cellValid_four
  · exact h

/-! ### Sanitization lemmas -/

lemma pow2_of_land_pred (n : Nat) (h0 : 0 < n) (h : n &&& (n - 1) = 0) :
    ∃ k : Nat, n = 2 ^ k := by
  revert h0 h
  induction n using Nat.strong_induction_on with
  | _ n ih =>
    intro h0 h
    by_cases h1 : n = 1
    · exact ⟨0, by omega⟩
    · have h2 : 2 ≤ n := by omega
      have hdiv : n / 2 &&& (n - 1) / 2 = 0 := by
        rw [← Nat.and_div_two, h]
      rcases Nat.even_or_odd n with he | ho
      · rw [Nat.even_iff] at he
        have heq : (n - 1) / 2 = n / 2 - 1 := by omega
        obtain ⟨k, hk⟩ := ih (n / 2) (by omega) (by omega) (by rw [← heq]; exact hdiv)
        refine ⟨k + 1, ?_⟩
        rw [pow_succ]
        omega
      · rw [Nat.odd_iff] at ho
        have heq : (n - 1) / 2 = n / 2 := by omega
        rw [heq, Nat.and_self] at hdiv
        exfalso
        omega

lemma isPowerOfTwoJS_pow {v : Int} (hlt : v < 2 ^ 31)
    (h : isPowerOfTwoJS v = true) : ∃ k : Nat, v.toNat = 2 ^ k := by
  rw [isPowerOfTwoJS, Bool.and_eq_true, decide_eq_true_iff, beq_iff_eq] at h
  obtain ⟨hpos, hand⟩ := h
  have hm1 : toUint32 v = v.toNat := by
    rw [toUint32, Int.emod_eq_of_lt (by omega) (by omega)]
  have hm2 : toUint32 (v - 1) = v.toNat - 1 := by
    rw [toUint32, Int.emod_eq_of_lt (by omega) (by omega)]
    omega
  rw [hm1, hm2] at hand
  exact pow2_of_land_pred v.toNat (by omega) hand

lemma cellValid_sanitizeValue_force (v : Int) : cellValid (sanitizeValue true v) := by
  rw [sanitizeValue, if_pos rfl, getNearestLowerPowerOfTwo]
  split
  · exact cellValid_zero
  · exact Or.inr ⟨_, rfl⟩

lemma cellValid_sanitizeValue {force : Bool} {v : Int} (hlt : v < 2 ^ 31) :
    cellValid (sanitizeValue force v) := by
  cases force
  · rw [sanitizeValue]
    simp only [Bool.false_eq_true, if_false]
    split
    · rename_i hpt
      rcases isPowerOfTwoJS_pow hlt hpt with ⟨k, hk⟩
      exact Or.inr ⟨k, hk⟩
    · exact cellValid_zero
  · exact cellValid_sanitizeValue_force v

lemma sanitizeState_length (s : List (List Int)) (force : Bool) :
    (sanitizeState s force).length = s.length := by
  simp [sanitizeState]

lemma sanitizeState_row_length {s : List (List Int)} {force : Bool} :
    ∀ row ∈ sanitizeState s force, ∃ row0 ∈ s, row.length = row0.length := by
  intro row hrow
  rw [sanitizeState, List.mem_map] at hrow
  obtain ⟨row0, hrow0, rfl⟩ := hrow
  exact ⟨row0, hrow0, by simp⟩

lemma gridValid_sanitizeState {n : Nat} {s : List (List Int)} {force : Bool}
    (hlen : s.length = n) (hrows : ∀ row ∈ s, row.length = n)
    (hsmall : force = true ∨ ∀ row ∈ s, ∀ v ∈ row, v < 2 ^ 31) :
    gridValid n (sanitizeState s force) := by
  refine ⟨by rw [sanitizeState_length, hlen], ?_, ?_⟩
  · intro row hrow
    obtain ⟨row0, hrow0, hl⟩ := sanitizeState_row_length row hrow
    rw [hl]
    exact hrows row0 hrow0
  · intro row hrow v hv
    rw [sanitizeState, List.mem_map] at hrow
    obtain ⟨row0, hrow0, rfl⟩ := hrow
    rw [List.mem_map] at hv
    obtain ⟨v0, hv0, rfl⟩ := hv
    rcases hsmall with rfl | hsmall
    · exact cellValid_sanitizeValue_force v0
    · exact cellValid_sanitizeValue (hsmall row0 hrow0 v0 hv0)

/-! ### Operation-level invariant and score lemmas -/

lemma gridValid_moveUp {n : Nat} {g : Game} (h : gridValid n g.state) :
    gridValid n (moveUp g).state :=
  gridValid_handleMove h

lemma gridValid_moveDown {n : Nat} {g : Game} (h : gridValid n g.state) :
    gridValid n (moveDown g).state := by
  show gridValid n (reverseGrid (handleMove { g with state := reverseGrid g.state }).state)
  exact gridValid_reverseGrid (gridValid_handleMove (gridValid_reverseGrid h))

lemma gridValid_moveLeft {n : Nat} {g : Game} (h : gridValid n g.state) :
    gridValid n (moveLeft g).state := by
  show gridValid n
    (rotateCounterClockwise (handleMove { g with state := rotateClockwise g.state }).state)
  exact gridValid_rotateCounterClockwise
    (gridValid_handleMove (gridValid_rotateClockwise h))

lemma gridValid_moveRight {n : Nat} {g : Game} (h : gridValid n g.state) :
    gridValid n (moveRight g).state := by
  show gridValid n
    (rotateClockwise (handleMove { g with state := rotateCounterClockwise g.state }).state)
  exact gridValid_rotateClockwise
    (gridValid_handleMove (gridValid_rotateCounterClockwise h))

lemma gridValid_move {n : Nat} {g : Game} (h : gridValid n g.state)
    (key : String) (r : Nat) (coin : Bool) :
    gridValid n (move key r coin g).state := by
  rw [move]
  rw [updateGameStatus_state]
  split
  · exact gridValid_placeNewTile (gridValid_moveUp h) r coin
  · split
    · exact gridValid_placeNewTile (gridValid_moveRight h) r coin
    · split
      · exact gridValid_placeNewTile (gridValid_moveDown h) r coin
      · split
        · exact gridValid_placeNewTile (gridValid_moveLeft h) r coin
        · exact gridValid_placeNewTile h r coin

lemma gridValid_foldl_placeNewTile {n : Nat} (l : List Nat)
    (rand : Nat → Nat × Bool) :
    ∀ {g : Game}, gridValid n g.state →
      gridValid n ((l.foldl (fun acc i => placeNewTile (rand i).1 (rand i).2 acc) g).state) := by
  induction l with
  | nil => exact fun h => h
  | cons x xs ih =>
    intro g h
    exact ih (gridValid_placeNewTile h (rand x).1 (rand x).2)

lemma gridValid_start {n : Nat} {g : Game} (h : gridValid n g.state)
    (rand : Nat → Nat × Bool) : gridValid n (start rand g).state :=
  gridValid_foldl_placeNewTile _ rand h

lemma ValidGame_applyOp {n : Nat} {g : Game} (h : ValidGame n g) (op : Op) :
    ValidGame n (applyOp g op) := by
  obtain ⟨hs, hi⟩ := h
  cases op with
  | start rand =>
    exact ⟨gridValid_start hs rand, by rw [show applyOp g (.start rand) = start rand g from rfl, start_initialState]; exact hi⟩
  | restart rand =>
    refine ⟨gridValid_start hi rand, ?_⟩
    rw [show applyOp g (.restart rand) = restart rand g from rfl, restart,
      start_initialState]
    exact hi
  | move key r coin =>
    refine ⟨gridValid_move hs key r coin, ?_⟩
    show gridValid n (move key r coin g).initialState
    rw [move, updateGameStatus_initialState]
    split
    · rw [(placeNewTile_frame r coin _).2.2.1, (moveUp_frame g).2.1]
      exact hi
    · split
      · rw [(placeNewTile_frame r coin _).2.2.1, (moveRight_frame g).2.1]
        exact hi
      · split
        · rw [(placeNewTile_frame r coin _).2.2.1, (moveDown_frame g).2.1]
          exact hi
        · split
          · rw [(placeNewTile_frame r coin _).2.2.1, (moveLeft_frame g).2.1]
            exact hi
          · rw [(placeNewTile_frame r coin _).2.2.1]
            exact hi

lemma ValidGame_applyOps {n : Nat} {g : Game} (h : ValidGame n g) (ops : List Op) :
    ValidGame n (applyOps g ops) := by
  induction ops generalizing g with
  | nil => exact h
  | cons op ops ih => exact ih (ValidGame_applyOp h op)

lemma handleMove_score_le (g : Game) : g.score ≤ (handleMove g).score := by
  rw [handleMove_score]
  exact Nat.le_add_right _ _

lemma moveUp_score_le (g : Game) : g.score ≤ (moveUp g).score :=
  handleMove_score_le g

lemma moveDown_score_le (g : Game) : g.score ≤ (moveDown g).score :=
  handleMove_score_le { g with state := reverseGrid g.state }

lemma moveLeft_score_le (g : Game) : g.score ≤ (moveLeft g).score :=
  handleMove_score_le { g with state := rotateClockwise g.state }

lemma moveRight_score_le (g : Game) : g.score ≤ (moveRight g).score :=
  handleMove_score_le { g with state := rotateCounterClockwise g.state }

lemma move_score_le (key : String) (r : Nat) (coin : Bool) (g : Game) :
    g.score ≤ (move key r coin g).score := by
  rw [move, updateGameStatus_score]
  split
  · rw [(placeNewTile_frame r coin _).1]
    exact moveUp_score_le g
  · split
    · rw [(placeNewTile_frame r coin _).1]
      exact moveRight_score_le g
    · split
      · rw [(placeNewTile_frame r coin _).1]
        exact moveDown_score_le g
      · split
        · rw [(placeNewTile_frame r coin _).1]
          exact moveLeft_score_le g
        · rw [(placeNewTile_frame r coin _).1]

lemma restart_score (rand : Nat → Nat × Bool) (g : Game) :
    (restart rand g).score = 0 := by
  rw [restart]
  exact start_score rand _

lemma applyOp_score_le {g : Game} {op : Op} (h : op.isRestart = false) :
    g.score ≤ (applyOp g op).score := by
  cases op with
  | start rand => exact le_of_eq (start_score rand g).symm
  | restart rand => exact absurd h (by rw [Op.isRestart]; simp)
  | move key r coin => exact move_score_le key r coin g

/-! ## Claim theorems -/

/-- A concrete 4×4 game whose first column is `[2,2,2,0]`, used as a test
vector for the merge claims. -/
def gColumnExample : Game :=
  ⟨[[2,0,0,0],[2,0,0,0],[2,0,0,0],[0,0,0,0]],
   [[0,0,0,0],[0,0,0,0],[0,0,0,0],[0,0,0,0]], 0, .Playing, 2⟩

/-- C1: the canonical upward merge (`handleMove`, i.e. `moveUp`) rewrites
every column to the padded single-pass merge of its non-zero entries
(`mergeColumn`), adds the per-column gains to the score, keeps the grid
shape, never re-merges a freshly merged pair in the same pass (the scan
advances past it), and in particular the column `[2,2,2,0]` moved up becomes
`[4,2,0,0]` with the score increased by exactly 4. -/
theorem c1_handleMove_merges_columns (g : Game) :
    (∀ c : Nat, c < g.state.length →
      getColumn (moveUp g).state c =
        (mergeColumn (getColumn g.state c) g.state.length).1) ∧
    (moveUp g).score = g.score +
      ((List.range g.state.length).map
        (fun c => (mergeColumn (getColumn g.state c) g.state.length).2)).sum ∧
    (moveUp g).state.length = g.state.length ∧
    (∀ row ∈ (moveUp g).state, row.length = g.state.length) ∧
    (∀ (x : Nat) (rest : List Nat),
      mergeList (x :: x :: rest) =
        (x * 2 :: (mergeList rest).1, (mergeList rest).2 + x * 2)) ∧
    mergeColumn [2, 2, 2, 0] 4 = ([4, 2, 0, 0], 4) ∧
    (∀ sc : Nat,
      (moveUp { gColumnExample with score := sc }).state
          = [[4,0,0,0],[2,0,0,0],[0,0,0,0],[0,0,0,0]] ∧
      (moveUp { gColumnExample with score := sc }).score = sc + 4) := by
  refine ⟨fun c hc => handleMove_col hc, handleMove_score g,
    handleMove_state_length g, handleMove_row_length g,
    fun x rest => by rw [mergeList, if_pos rfl], by decide, fun sc => ⟨rfl, rfl⟩⟩

/-- Witness for C1 at the concrete grid whose first column is `[2,2,2,0]`. -/
theorem c1_witness :
    (0 : Nat) < gColumnExample.state.length ∧
    getColumn (moveUp gColumnExample).state 0 = [4, 2, 0, 0] :=
  ⟨by decide,
    ((c1_handleMove_merges_columns gColumnExample).1 0 (by decide)).trans (by decide)⟩

lemma placeNewTile_pos {g : Game} (h : 0 < (emptyCells g.state).length)
    (r : Nat) (coin : Bool) :
    placeNewTile r coin g =
      { g with
        state := setCell g.state
            ((emptyCells g.state).getD (r % (emptyCells g.state).length) (0, 0)).1
            ((emptyCells g.state).getD (r % (emptyCells g.state).length) (0, 0)).2
            (getTwoOrFour coin) } := by
  simp only [placeNewTile, if_pos h]

lemma placeNewTile_neg {g : Game} (h : ¬ 0 < (emptyCells g.state).length)
    (r : Nat) (coin : Bool) : placeNewTile r coin g = g := by
  simp only [placeNewTile, if_neg h]

/-- A concrete full 2×2 board that contains 2048 but admits no move. -/
def gWonFull : Game := ⟨[[2048, 4], [4, 2]], [[0, 0], [0, 0]], 0, .Playing, 2⟩

/-- C3: `updateGameStatus` sets `Lost` exactly when `checkMovePossibility`
is false, and that check takes precedence over the win check: with no
possible move the status becomes `Lost` even when a 2048 tile is present;
only with a possible move and a 2048 tile does it become `Won`.  The grid
and score are untouched. -/
theorem c3_updateGameStatus_lost_precedence (g : Game) :
    (checkMovePossibility g.state = false → (updateGameStatus g).status = .Lost) ∧
    (checkMovePossibility g.state = true → has2048 g.state = true →
      (updateGameStatus g).status = .Won) ∧
    ((updateGameStatus g).status =
      if checkMovePossibility g.state = false then Status.Lost
      else if has2048 g.state = true then Status.Won
      else g.status) ∧
    (updateGameStatus g).state = g.state ∧
    (updateGameStatus g).score = g.score ∧
    checkMovePossibility gWonFull.state = false ∧
    has2048 gWonFull.state = true ∧
    (updateGameStatus gWonFull).status = .Lost := by
  refine ⟨?_, ?_, updateGameStatus_status g, updateGameStatus_state g,
    updateGameStatus_score g, by decide, by decide, by decide⟩
  · intro h
    rw [updateGameStatus_status, if_pos h]
  · intro h1 h2
    rw [updateGameStatus_status, if_neg (by rw [h1]; simp), if_pos h2]

/-- Witness for C3: on the full 2×2 board that contains a 2048 tile and
admits no move, the loss branch fires. -/
theorem c3_witness :
    checkMovePossibility gWonFull.state = false ∧
    (updateGameStatus gWonFull).status = .Lost :=
  ⟨by decide, (c3_updateGameStatus_lost_precedence gWonFull).1 (by decide)⟩

/-- A concrete full 2×2 board with no possible move, with status `Won`. -/
def gWonNoMoves : Game := ⟨[[2, 4], [4, 2]], [[0, 0], [0, 0]], 0, .Won, 2⟩

/-- C10: `updateGameStatus` never assigns `Playing`: when a move is possible
and no 2048 tile is present it leaves the status field untouched, so a
result of `Playing` can only reflect a prior `Playing`, and `Won` is not
terminal — on a concrete full `Won` board a further move turns it `Lost`. -/
theorem c10_updateGameStatus_never_playing :
    (∀ g : Game, checkMovePossibility g.state = true → has2048 g.state = false →
      (updateGameStatus g).status = g.status) ∧
    (∀ g : Game, (updateGameStatus g).status = .Playing → g.status = .Playing) ∧
    gWonNoMoves.status = .Won ∧
    (move "ArrowLeft" 0 true gWonNoMoves).status = .Lost := by
  refine ⟨?_, ?_, rfl, by decide⟩
  · intro g h1 h2
    rw [updateGameStatus_status, if_neg (by rw [h1]; simp), if_neg (by rw [h2]; simp)]
  · intro g h
    by_cases h1 : checkMovePossibility g.state = false
    · rw [updateGameStatus_status, if_pos h1] at h
      exact absurd h (by decide)
    · by_cases h2 : has2048 g.state = true
      · rw [updateGameStatus_status, if_neg h1, if_pos h2] at h
        exact absurd h (by decide)
      · rw [updateGameStatus_status, if_neg h1, if_neg h2] at h
        exact h

/-- Witness for C10: a board where a move is possible and no 2048 tile is
present keeps its (here `Idle`) status through `updateGameStatus`. -/
theorem c10_witness :
    checkMovePossibility gColumnExample.state = true ∧
    has2048 gColumnExample.state = false ∧
    (updateGameStatus gColumnExample).status = gColumnExample.status :=
  ⟨by decide, by decide,
    (c10_updateGameStatus_never_playing).1 gColumnExample (by decide) (by decide)⟩

/-- C5: `checkMovePossibility` returns true iff some cell is `0` or some
pair of horizontally or vertically adjacent cells holds equal non-zero
values; equivalently a `false` result certifies that no cell anywhere in
the grid is empty or equal to a neighbour. -/
theorem c5_checkMovePossibility_iff (s : List (List Nat)) :
    checkMovePossibility s = true ↔
      (∃ r c, r < s.length ∧ c < s.length ∧ cellAt s r c = 0) ∨
      (∃ r c, r < s.length ∧ c + 1 < s.length ∧ cellAt s r c ≠ 0 ∧
        cellAt s r c = cellAt s r (c + 1)) ∨
      (∃ r c, r + 1 < s.length ∧ c < s.length ∧ cellAt s r c ≠ 0 ∧
        cellAt s r c = cellAt s (r + 1) c) := by
  rw [checkMovePossibility]
  simp only [List.any_eq_true, List.mem_range, Bool.or_eq_true, Bool.and_eq_true,
    beq_iff_eq, decide_eq_true_eq]
  constructor
  · rintro ⟨r, hr, c, hc, H⟩
    rcases H with (h0 | ⟨hlt, heq⟩) | ⟨hlt, heq⟩
    · exact Or.inl ⟨r, c, hr, hc, h0⟩
    · by_cases hz : cellAt s r c = 0
      · exact Or.inl ⟨r, c, hr, hc, hz⟩
      · exact Or.inr (Or.inl ⟨r, c, hr, by omega, hz, heq.symm⟩)
    · by_cases hz : cellAt s r c = 0
      · exact Or.inl ⟨r, c, hr, hc, hz⟩
      · exact Or.inr (Or.inr ⟨r, c, by omega, hc, hz, heq.symm⟩)
  · rintro (⟨r, c, hr, hc, h0⟩ | ⟨r, c, hr, hc1, hne, heq⟩ | ⟨r, c, hr1, hc, hne, heq⟩)
    · exact ⟨r, hr, c, hc, Or.inl (Or.inl h0)⟩
    · exact ⟨r, hr, c, by omega, Or.inl (Or.inr ⟨by omega, heq.symm⟩)⟩
    · exact ⟨r, by omega, c, hc, Or.inr ⟨by omega, heq.symm⟩⟩

/-- C6: `placeNewTile` on a square grid writes 2 or 4 into exactly one cell
that currently holds 0 and changes nothing else (in particular it never
overwrites a non-zero cell); on a grid with no empty cell it is a no-op.
Score, status and grid shape are untouched in every case. -/
theorem c6_placeNewTile_spec (g : Game) (r : Nat) (coin : Bool)
    (hsq : Square g.state) :
    (emptyCells g.state = [] → placeNewTile r coin g = g) ∧
    (emptyCells g.state ≠ [] → ∃ rw0 cl : Nat,
      (rw0, cl) ∈ emptyCells g.state ∧
      cellAt g.state rw0 cl = 0 ∧
      (cellAt (placeNewTile r coin g).state rw0 cl = 2 ∨
        cellAt (placeNewTile r coin g).state rw0 cl = 4) ∧
      (∀ r' c' : Nat, ¬(r' = rw0 ∧ c' = cl) →
        cellAt (placeNewTile r coin g).state r' c' = cellAt g.state r' c')) ∧
    (placeNewTile r coin g).score = g.score ∧
    (placeNewTile r coin g).status = g.status ∧
    (placeNewTile r coin g).state.length = g.state.length ∧
    (∀ row ∈ (placeNewTile r coin g).state, row.length = g.state.length) := by
  refine ⟨?_, ?_, (placeNewTile_frame r coin g).1, (placeNewTile_frame r coin g).2.1,
    placeNewTile_state_length r coin g, ?_⟩
  · intro h
    exact placeNewTile_neg (by rw [h]; simp) r coin
  · intro h
    have hlen : 0 < (emptyCells g.state).length := List.length_pos.mpr h
    have hp : (emptyCells g.state).getD (r % (emptyCells g.state).length) (0, 0)
        ∈ emptyCells g.state := getD_mem _ (Nat.mod_lt _ hlen) _
    obtain ⟨h1, h2, h3⟩ := mem_emptyCells.mp hp
    refine ⟨((emptyCells g.state).getD (r % (emptyCells g.state).length) (0, 0)).1,
      ((emptyCells g.state).getD (r % (emptyCells g.state).length) (0, 0)).2,
      hp, h3, ?_, ?_⟩
    · have hself : cellAt (placeNewTile r coin g).state
          ((emptyCells g.state).getD (r % (emptyCells g.state).length) (0, 0)).1
          ((emptyCells g.state).getD (r % (emptyCells g.state).length) (0, 0)).2
          = getTwoOrFour coin := by
        rw [placeNewTile_pos hlen r coin]
        exact cellAt_setCell_self _ h1 (by rw [square_row_length hsq h1]; exact h2)
      rw [hself]
      exact getTwoOrFour_cases coin
    · intro r' c' hne
      rw [placeNewTile_pos hlen r coin]
      exact cellAt_setCell_other hne
  · have hrows : ∀ row ∈ g.state, row.length = g.state.length := hsq
    exact placeNewTile_row_length hrows r coin

/-- Witness for C6: on the concrete example grid (square, with empty
cells) the spawn leaves score and shape alone. -/
theorem c6_witness :
    Square gColumnExample.state ∧
    (placeNewTile 0 true gColumnExample).score = gColumnExample.score ∧
    (placeNewTile 0 true gColumnExample).state.length
      = gColumnExample.state.length :=
  ⟨by decide,
    (c6_placeNewTile_spec gColumnExample 0 true (by decide)).2.2.1,
    (c6_placeNewTile_spec gColumnExample 0 true (by decide)).2.2.2.2.1⟩

/-- The value `2^32 + 1` is neither zero nor a power of two. -/
lemma not_cellValid_4294967297 : ¬ cellValid 4294967297 := by
  rintro (h | ⟨k, hk⟩)
  · exact absurd h (by decide)
  · cases k with
    | zero => exact absurd hk (by decide)
    | succ m =>
      rw [pow_succ] at hk
      omega

/-- C8: `sanitizeState` with `forcePowerOfTwo` disabled keeps the value
`2^32 + 1 = 4294967297`, which is not a power of two, because JavaScript's
`&` truncates its operands to 32 bits (`ToInt32(2^32+1) = 1`,
`ToInt32(2^32) = 0`, and `1 & 0 === 0`), so the power-of-two test wrongly
accepts it — contradicting the function's own contract that every returned
value is 0 or a power of two. -/
theorem c8_sanitizeState_int32_bug :
    isPowerOfTwoJS 4294967297 = true ∧
    sanitizeState [[4294967297]] false = [[4294967297]] ∧
    ¬ cellValid 4294967297 :=
  ⟨by decide, by decide, not_cellValid_4294967297⟩

/-- Counterexample to C4 as stated: constructing a game from the 1×1 grid
`[[2^32 + 1]]` with sanitization in its default (non-forcing) mode leaves a
cell that is neither 0 nor a power of two on the board. -/
theorem c4_counterexample :
    (Game.new (some [[4294967297]]) 2 false).state = [[4294967297]] ∧
    ¬ cellValid (cellAt (Game.new (some [[4294967297]]) 2 false).state 0 0) :=
  ⟨by decide, by
    rw [show cellAt (Game.new (some [[4294967297]]) 2 false).state 0 0
      = 4294967297 from by decide]
    exact not_cellValid_4294967297⟩

/-- C7: `restart` resets the score to 0, rebuilds the live grid from the
retained `initialState` snapshot, passes through `Idle`, and then runs
`start()`, so afterwards the status is `Playing` and the state is the
initial layout with only fresh 2/4 tiles spawned onto empty cells.  The
result depends only on the snapshot and `startTilesAmount` — not on the
board as left after play. -/
theorem c7_restart_spec (g : Game) (rand : Nat → Nat × Bool) :
    (restart rand g).status = .Playing ∧
    (restart rand g).score = 0 ∧
    (restart rand g).initialState = g.initialState ∧
    spawnRel g.initialState (restart rand g).state ∧
    (∀ g' : Game, g'.initialState = g.initialState →
      g'.startTilesAmount = g.startTilesAmount →
      restart rand g' = restart rand g) := by
  refine ⟨start_status rand _, restart_score rand g, ?_, ?_, ?_⟩
  · rw [restart, start_initialState]
  · exact start_spawnRel rand
      { g with status := .Idle, state := g.initialState, score := 0 }
  · intro g' h1 h2
    rw [restart, restart, h1, h2]

/-- The fixed random source used by the witnesses. -/
def randZero : Nat → Nat × Bool := fun _ => (0, true)

/-- Witness for C7: restarting a played-out board equals restarting any
other board that shares its snapshot and start-tile count. -/
theorem c7_witness :
    (restart randZero gWonNoMoves).status = .Playing ∧
    restart randZero (⟨[[8, 8], [8, 8]], [[0, 0], [0, 0]], 77, .Lost, 2⟩ : Game)
      = restart randZero gWonNoMoves :=
  ⟨(c7_restart_spec gWonNoMoves randZero).1,
    (c7_restart_spec gWonNoMoves randZero).2.2.2.2
      ⟨[[8, 8], [8, 8]], [[0, 0], [0, 0]], 77, .Lost, 2⟩ (by decide) (by decide)⟩

lemma placeNewTile_status_set (r : Nat) (coin : Bool) (h : Game) (st : Status) :
    placeNewTile r coin { h with status := st }
      = { placeNewTile r coin h with status := st } := by
  by_cases hc : 0 < (emptyCells h.state).length
  · rw [placeNewTile_pos (g := { h with status := st }) hc, placeNewTile_pos hc]
  · rw [placeNewTile_neg (g := { h with status := st }) hc, placeNewTile_neg hc]

lemma moveTransform_status_set (key : String) (g : Game) (st : Status) :
    (if key = "ArrowUp" then moveUp { g with status := st }
     else if key = "ArrowRight" then moveRight { g with status := st }
     else if key = "ArrowDown" then moveDown { g with status := st }
     else if key = "ArrowLeft" then moveLeft { g with status := st }
     else { g with status := st }) =
    { (if key = "ArrowUp" then moveUp g
       else if key = "ArrowRight" then moveRight g
       else if key = "ArrowDown" then moveDown g
       else if key = "ArrowLeft" then moveLeft g
       else g) with status := st } := by
  by_cases h1 : key = "ArrowUp"
  · simp only [if_pos h1]
    rfl
  · by_cases h2 : key = "ArrowRight"
    · simp only [if_neg h1, if_pos h2]
      rfl
    · by_cases h3 : key = "ArrowDown"
      · simp only [if_neg h1, if_neg h2, if_pos h3]
        rfl
      · by_cases h4 : key = "ArrowLeft"
        · simp only [if_neg h1, if_neg h2, if_neg h3, if_pos h4]
          rfl
        · simp only [if_neg h1, if_neg h2, if_neg h3, if_neg h4]

/-- C9: `move` with an argument outside the four arrow keys leaves the
transform step a no-op yet still performs exactly one `placeNewTile`
attempt followed by one `updateGameStatus` (so the whole call equals that
two-step pipeline, and the score is unchanged); and `move` never reads the
status field: calling it from any status produces the same grid and
score. -/
theorem c9_move_unknown_key_pipeline :
    (∀ (key : String) (r : Nat) (coin : Bool) (g : Game),
      key ∉ (["ArrowUp", "ArrowRight", "ArrowDown", "ArrowLeft"] : List String) →
      move key r coin g = updateGameStatus (placeNewTile r coin g) ∧
      (move key r coin g).score = g.score) ∧
    (∀ (key : String) (r : Nat) (coin : Bool) (g : Game) (st : Status),
      (move key r coin { g with status := st }).state = (move key r coin g).state ∧
      (move key r coin { g with status := st }).score = (move key r coin g).score) := by
  constructor
  · intro key r coin g hk
    simp only [List.mem_cons, List.not_mem_nil, or_false, not_or] at hk
    obtain ⟨h1, h2, h3, h4⟩ := hk
    constructor
    · simp only [move, if_neg h1, if_neg h2, if_neg h3, if_neg h4]
    · simp only [move, if_neg h1, if_neg h2, if_neg h3, if_neg h4]
      rw [updateGameStatus_score, (placeNewTile_frame r coin g).1]
  · intro key r coin g st
    constructor
    · simp only [move]
      rw [updateGameStatus_state, updateGameStatus_state, moveTransform_status_set,
        placeNewTile_status_set]
    · simp only [move]
      rw [updateGameStatus_score, updateGameStatus_score, moveTransform_status_set,
        placeNewTile_status_set]

/-- Witness for C9: the unrecognized key `"Enter"` on a concrete board runs
exactly the spawn-then-status pipeline. -/
theorem c9_witness :
    ("Enter" ∉ (["ArrowUp", "ArrowRight", "ArrowDown", "ArrowLeft"] : List String)) ∧
    move "Enter" 0 true gWonFull = updateGameStatus (placeNewTile 0 true gWonFull) :=
  ⟨by decide,
    ((c9_move_unknown_key_pipeline).1 "Enter" 0 true gWonFull (by decide)).1⟩

/-- C2: on a square grid the four directional moves, implemented by
orientation changes around the canonical upward merge, coincide with direct
compact-and-merge operations toward the corresponding edge: up merges each
column head-first, down merges each column tail-first (reverse, merge,
reverse), left merges each row head-first, right merges each row tail-first
— with identical scores; in particular `moveLeft` equals transposing,
running the canonical `moveUp` merge, and transposing back. -/
theorem c2_moves_refine_directional_merges (g : Game) (hsq : Square g.state) :
    ((∀ c : Nat, c < g.state.length →
      getColumn (moveUp g).state c =
        (mergeColumn (getColumn g.state c) g.state.length).1) ∧
     (moveUp g).score = g.score +
      ((List.range g.state.length).map
        (fun c => (mergeColumn (getColumn g.state c) g.state.length).2)).sum) ∧
    ((∀ c : Nat, c < g.state.length →
      getColumn (moveDown g).state c =
        ((mergeColumn (getColumn g.state c).reverse g.state.length).1).reverse) ∧
     (moveDown g).score = g.score +
      ((List.range g.state.length).map
        (fun c => (mergeColumn (getColumn g.state c).reverse g.state.length).2)).sum ∧
     (moveDown g).state.length = g.state.length ∧
     (∀ row ∈ (moveDown g).state, row.length = g.state.length)) ∧
    ((∀ i : Nat, i < g.state.length →
      (moveLeft g).state.getD i [] =
        (mergeColumn (g.state.getD i []) g.state.length).1) ∧
     (moveLeft g).score = g.score +
      ((List.range g.state.length).map
        (fun i => (mergeColumn (g.state.getD i []) g.state.length).2)).sum ∧
     (moveLeft g).state.length = g.state.length) ∧
    ((∀ i : Nat, i < g.state.length →
      (moveRight g).state.getD i [] =
        ((mergeColumn (g.state.getD i []).reverse g.state.length).1).reverse) ∧
     (moveRight g).score = g.score +
      ((List.range g.state.length).map
        (fun i => (mergeColumn (g.state.getD i []).reverse g.state.length).2)).sum ∧
     (moveRight g).state.length = g.state.length) ∧
    ((moveLeft g).state
      = transpose ((moveUp { g with state := transpose g.state }).state) ∧
     (moveLeft g).score = (moveUp { g with state := transpose g.state }).score) := by
  have hXlen : ({ g with state := transpose g.state } : Game).state.length
      = g.state.length := by
    show (transpose g.state).length = _
    exact length_transpose g.state
  refine ⟨⟨fun c hc => handleMove_col hc, handleMove_score g⟩,
    ⟨fun c hc => moveDown_col hc, moveDown_score g, moveDown_state_length g,
      moveDown_row_length g⟩,
    ⟨fun i hi => moveLeft_row hsq hi, moveLeft_score hsq, moveLeft_state_length g⟩,
    ⟨fun i hi => moveRight_row hsq hi, moveRight_score hsq, moveRight_state_length g⟩,
    ?_, ?_⟩
  · apply List.ext_getElem
    · rw [moveLeft_state_length, length_transpose, moveUp_state_length, hXlen]
    · intro i h1 h2
      have hi : i < g.state.length := by
        rw [moveLeft_state_length] at h1
        exact h1
      have hiA : i < (moveUp { g with state := transpose g.state }).state.length := by
        rw [moveUp_state_length, hXlen]
        exact hi
      rw [← getD_of_lt _ h1, ← getD_of_lt _ h2, moveLeft_row hsq hi,
        transpose_getD hiA, moveUp, handleMove_col (by rw [hXlen]; exact hi), hXlen]
      have hcol : getColumn ({ g with state := transpose g.state } : Game).state i
          = g.state.getD i [] := by
        show getColumn (transpose g.state) i = _
        exact getColumn_transpose hi (square_row_length hsq hi)
      rw [hcol]
  · have hsc : ({ g with state := transpose g.state } : Game).score = g.score := rfl
    have hmap : (List.range g.state.length).map
        (fun c => (mergeColumn
          (getColumn ({ g with state := transpose g.state } : Game).state c)
          g.state.length).2)
        = (List.range g.state.length).map
          (fun i => (mergeColumn (g.state.getD i []) g.state.length).2) := by
      apply List.map_congr_left
      intro c hcm
      rw [List.mem_range] at hcm
      have hcol : getColumn ({ g with state := transpose g.state } : Game).state c
          = g.state.getD c [] := by
        show getColumn (transpose g.state) c = _
        exact getColumn_transpose hcm (square_row_length hsq hcm)
      rw [hcol]
    rw [moveLeft_score hsq, moveUp, handleMove_score, hXlen, hsc, hmap]

/-- Witness for C2 on a concrete square grid: the left move on the row
`[2,2,4,0]` merges it to `[4,4,0,0]`. -/
theorem c2_witness :
    Square (⟨[[2,2,4,0],[0,0,0,0],[0,0,0,0],[0,0,0,0]],
      [[0,0,0,0],[0,0,0,0],[0,0,0,0],[0,0,0,0]], 0, .Playing, 2⟩ : Game).state ∧
    (moveLeft (⟨[[2,2,4,0],[0,0,0,0],[0,0,0,0],[0,0,0,0]],
      [[0,0,0,0],[0,0,0,0],[0,0,0,0],[0,0,0,0]], 0, .Playing, 2⟩ : Game)).state.getD 0 []
      = [4, 4, 0, 0] :=
  ⟨by decide,
    ((c2_moves_refine_directional_merges
      (⟨[[2,2,4,0],[0,0,0,0],[0,0,0,0],[0,0,0,0]],
        [[0,0,0,0],[0,0,0,0],[0,0,0,0],[0,0,0,0]], 0, .Playing, 2⟩ : Game)
      (by decide)).2.2.1.1 0 (by decide)).trans (by decide)⟩

/-- C4 (amended): provided forcing is enabled or every cell of the
construction-time input grid is below `2^31` (the range on which the
sanitizer's 32-bit bit test agrees with exact arithmetic), then after any
sequence of start / restart / move operations every grid cell is 0 or a
strictly positive power of two and the grid (and the retained snapshot)
stays square of the size fixed at construction; moreover the score never
decreases under any non-restart operation, and an explicit restart resets
it to 0. -/
theorem c4_amended_invariants :
    (∀ (n : Nat) (init : List (List Int)) (stq : Nat) (force : Bool)
      (ops : List Op),
      init.length = n → (∀ row ∈ init, row.length = n) →
      (force = true ∨ ∀ row ∈ init, ∀ v ∈ row, v < 2 ^ 31) →
      ValidGame n (applyOps (Game.new (some init) stq force) ops)) ∧
    (∀ (stq : Nat) (force : Bool) (ops : List Op),
      ValidGame 4 (applyOps (Game.new none stq force) ops)) ∧
    (∀ (g : Game) (op : Op), op.isRestart = false →
      g.score ≤ (applyOp g op).score) ∧
    (∀ (g : Game) (rand : Nat → Nat × Bool),
      (applyOp g (Op.restart rand)).score = 0) := by
  have hmain : ∀ (n : Nat) (init : List (List Int)) (stq : Nat) (force : Bool)
      (ops : List Op),
      init.length = n → (∀ row ∈ init, row.length = n) →
      (force = true ∨ ∀ row ∈ init, ∀ v ∈ row, v < 2 ^ 31) →
      ValidGame n (applyOps (Game.new (some init) stq force) ops) := by
    intro n init stq force ops hlen hrows hsmall
    have hvalid : gridValid n (sanitizeState init force) :=
      gridValid_sanitizeState hlen hrows hsmall
    exact ValidGame_applyOps ⟨hvalid, hvalid⟩ ops
  refine ⟨hmain, ?_, fun g op h => applyOp_score_le h,
    fun g rand => restart_score rand g⟩
  intro stq force ops
  exact hmain 4 DEFAULT_BOARD stq force ops (by decide) (by decide)
    (Or.inr (by decide))

/-- Witness for C4 (amended): a concrete 2×2 construction followed by an
up move keeps the invariant. -/
theorem c4_amended_witness :
    (([[2, 2], [2, 2]] : List (List Int)).length = 2) ∧
    (∀ row ∈ ([[2, 2], [2, 2]] : List (List Int)), row.length = 2) ∧
    ((false = true) ∨ ∀ row ∈ ([[2, 2], [2, 2]] : List (List Int)),
      ∀ v ∈ row, v < 2 ^ 31) ∧
    ValidGame 2 (applyOps (Game.new (some [[2, 2], [2, 2]]) 2 false)
      [Op.move "ArrowUp" 0 true]) :=
  ⟨by decide, by decide, by decide,
    c4_amended_invariants.1 2 [[2, 2], [2, 2]] 2 false
      [Op.move "ArrowUp" 0 true] (by decide) (by decide) (by decide)⟩
